import Mathlib

/-!
Verification of the common command-line argument module of the Spack package
manager (lib/spack/spack/cmd/common/arguments.py).

The module is embedded shallowly:

* the argument registry becomes an association list from names to argument
  records, and the attachment loop becomes a recursive function returning
  an exceptional result that carries the parser state at the point of a raise;
* the three custom argparse actions (ConstraintAction, SetParallelJobs,
  DeptypeAction) become pure functions over explicit state, with the external
  collaborators (spec parser, installed-package database, active environment,
  configuration system, cpu count, dependency-type canonicalizer) passed in
  as parameters;
* a Python raise is modelled with Except, the error value carrying both the
  message and the state at the raise, so that partial mutation before a raise
  stays observable.
-/

namespace SpackArgs

/-! ## Data model: argument records and the registry -/

/-- The nargs keyword values used by the builders in the source:
argparse.REMAINDER and the string plus-sign. -/
inductive Nargs
  | remainder
  | one_or_more
deriving DecidableEq

/-- The action keyword values used by the builders in the source: the default
store, the string actions, and the three custom action classes. -/
inductive ActionKind
  | store
  | store_true
  | store_false
  | append
  | constraint_action
  | set_parallel_jobs
  | deptype_action
deriving DecidableEq

/-- The default keyword values used by the builders in the source: absent,
a boolean (False, or a value read from config:dirty), or the tuple
dep.all_deptypes. -/
inductive DefaultVal
  | unset
  | boolean (b : Bool)
  | deptypes (ds : List String)
deriving DecidableEq

/-- Embedding of spack.util.pattern.Args as used here: positional flags plus
the keyword arguments that the builders in the source actually pass. -/
structure Args where
  flags : List String
  nargs : Option Nargs := Option.none
  action : ActionKind := ActionKind.store
  help : String := ""
  metavar : Option String := Option.none
  dest : Option String := Option.none
  default : DefaultVal := DefaultVal.unset
  type_is_int : Bool := false
deriving DecidableEq

/-! ## SetParallelJobs -/

/-- The slice of the layered configuration relevant to this module: the
config:build_jobs entry in the command_line scope, and the merged
config:build_jobs entry of all lower-priority scopes. -/
structure ConfigState where
  command_line_build_jobs : Option Int := Option.none
  lower_scopes_build_jobs : Option Int := Option.none
deriving DecidableEq

/-- Embedding of spack.config.get for the key config:build_jobs with a
fallback: the command_line scope has the highest priority. -/
def config_get_build_jobs (config : ConfigState) (fallback : Int) : Int :=
  match config.command_line_build_jobs with
  | Option.some v => v
  | Option.none =>
    match config.lower_scopes_build_jobs with
    | Option.some v => v
    | Option.none => fallback

/-- Embedding of spack.config.set for the key config:build_jobs in the
command_line scope. -/
def config_set_build_jobs (config : ConfigState) (value : Int) : ConfigState :=
  { config with command_line_build_jobs := Option.some value }

/-- The namespace field written by SetParallelJobs. -/
structure JobsNamespace where
  jobs : Option Int := Option.none
deriving DecidableEq

/-- The state touched by a SetParallelJobs invocation: the process-wide
configuration and the argparse namespace. -/
structure JobsWorld where
  config : ConfigState
  ns : JobsNamespace
deriving DecidableEq

/-- The message of the ValueError raised by SetParallelJobs for a
non-positive job count, naming the flag and the value. -/
def invalid_jobs_message (option_string : String) (jobs : Int) : String :=
  "invalid value for argument \"" ++ option_string ++
    "\" [expected a positive integer, got \"" ++ toString jobs ++ "\"]"

/-- Embedding of SetParallelJobs.__call__: jobs is already an integer
(argparse type conversion happened); a value below 1 raises before any
mutation (the error carries the unchanged world); otherwise the value is
clamped to the cpu count, written into the command_line configuration scope
and stored on the namespace. -/
def SetParallelJobs.call (cpu_count : Nat) (w : JobsWorld) (jobs : Int)
    (option_string : String) : Except (String × JobsWorld) JobsWorld :=
  if jobs < 1 then
    Except.error (invalid_jobs_message option_string jobs, w)
  else
    Except.ok { config := config_set_build_jobs w.config (min jobs (cpu_count : Int)),
                ns := { w.ns with jobs := Option.some (min jobs (cpu_count : Int)) } }

/-- Embedding of the SetParallelJobs.default property getter: recomputed on
every access from the current configuration and cpu count. -/
def SetParallelJobs.default (cpu_count : Nat) (config : ConfigState) : Int :=
  min (config_get_build_jobs config 16) (cpu_count : Int)

/-- Embedding of the SetParallelJobs.default property setter: its body is
pass, so it leaves every state untouched. -/
def SetParallelJobs.default_set (config : ConfigState) (_value : Int) : ConfigState :=
  config

/-! ## DeptypeAction -/

/-- The argument handed to the external canonicalizer dep.canonical_deptype:
either the symbolic string all (a distinct representation), or a tuple of
tokens. -/
inductive DeptypeArg
  | all
  | tokens (ts : List String)
deriving DecidableEq

/-- Embedding of DeptypeAction.__call__. The external collaborators are the
tuple dep.all_deptypes and the fallible canonicalizer dep.canonical_deptype.
A missing or empty value (falsy in Python) leaves the default tuple; a
non-empty value is split on commas, each token stripped, the singleton
sequence of the token all replaced by the symbolic marker, and the result
passed to the canonicalizer, whose error propagates. -/
def DeptypeAction.call (all_deptypes : List String)
    (canonical_deptype : DeptypeArg → Except String (List String))
    (values : Option String) : Except String (List String) :=
  match values with
  | Option.none => Except.ok all_deptypes
  | Option.some v =>
    if v = "" then Except.ok all_deptypes
    else
      canonical_deptype
        (if (v.splitOn ",").map String.trim = ["all"] then DeptypeArg.all
         else DeptypeArg.tokens ((v.splitOn ",").map String.trim))

/-! ## Theorems for SetParallelJobs and DeptypeAction -/

/-- C3: when SetParallelJobs fires with an integer job count j, if j is at
least 1 it accepts j and stores min(j, cpu_count) on the namespace; if j is
below 1 it raises the invalid-job-count error naming the flag and the value,
and the world (namespace included) is left exactly as it was, so no value is
stored. -/
theorem C3_job_count_validation (cpu_count : Nat) (w : JobsWorld) (jobs : Int)
    (option_string : String) :
    (1 ≤ jobs → SetParallelJobs.call cpu_count w jobs option_string =
      Except.ok { config := config_set_build_jobs w.config (min jobs (cpu_count : Int)),
                  ns := { w.ns with jobs := Option.some (min jobs (cpu_count : Int)) } }) ∧
    (jobs < 1 → SetParallelJobs.call cpu_count w jobs option_string =
      Except.error (invalid_jobs_message option_string jobs, w)) := by
  constructor
  · intro h
    have h' : ¬ jobs < 1 := by omega
    simp [SetParallelJobs.call, h']
  · intro h
    simp [SetParallelJobs.call, h]

theorem C3_job_count_validation_witness :
    (1 ≤ (3 : Int) ∧ SetParallelJobs.call 8 ⟨⟨Option.none, Option.none⟩, ⟨Option.none⟩⟩ 3 "-j" =
      Except.ok { config := config_set_build_jobs ⟨Option.none, Option.none⟩ (min 3 (8 : Int)),
                  ns := { jobs := Option.some (min 3 (8 : Int)) } }) ∧
    ((-2 : Int) < 1 ∧ SetParallelJobs.call 8 ⟨⟨Option.none, Option.none⟩, ⟨Option.none⟩⟩ (-2) "-j" =
      Except.error (invalid_jobs_message "-j" (-2), ⟨⟨Option.none, Option.none⟩, ⟨Option.none⟩⟩)) :=
  ⟨⟨by decide,
    (C3_job_count_validation 8 ⟨⟨Option.none, Option.none⟩, ⟨Option.none⟩⟩ 3 "-j").1 (by decide)⟩,
   ⟨by decide,
    (C3_job_count_validation 8 ⟨⟨Option.none, Option.none⟩, ⟨Option.none⟩⟩ (-2) "-j").2 (by decide)⟩⟩

/-- C9: the configuration write of SetParallelJobs happens only after
validation succeeds: for every job count below 1 the action raises with the
configuration scope (and the namespace) left unchanged, and for every job
count of at least 1 the accepted run writes the clamped value into the
command_line scope. -/
theorem C9_config_write_after_validation (cpu_count : Nat) (w : JobsWorld)
    (jobs : Int) (option_string : String) :
    (jobs < 1 → ∃ m w', SetParallelJobs.call cpu_count w jobs option_string =
      Except.error (m, w') ∧ w'.config = w.config ∧ w'.ns = w.ns) ∧
    (1 ≤ jobs → ∃ w', SetParallelJobs.call cpu_count w jobs option_string =
      Except.ok w' ∧
      w'.config.command_line_build_jobs = Option.some (min jobs (cpu_count : Int))) := by
  constructor
  · intro h
    exact ⟨invalid_jobs_message option_string jobs, w, by simp [SetParallelJobs.call, h], rfl, rfl⟩
  · intro h
    have h' : ¬ jobs < 1 := by omega
    refine ⟨{ config := config_set_build_jobs w.config (min jobs (cpu_count : Int)),
              ns := { w.ns with jobs := Option.some (min jobs (cpu_count : Int)) } }, ?_, rfl⟩
    simp [SetParallelJobs.call, h']

theorem C9_config_write_after_validation_witness :
    ((-1 : Int) < 1 ∧
      (∃ m w', SetParallelJobs.call 4 ⟨⟨Option.none, Option.some 2⟩, ⟨Option.none⟩⟩ (-1) "--jobs" =
        Except.error (m, w') ∧ w'.config = ⟨Option.none, Option.some 2⟩ ∧ w'.ns = ⟨Option.none⟩)) ∧
    (1 ≤ (999 : Int) ∧
      (∃ w', SetParallelJobs.call 4 ⟨⟨Option.none, Option.some 2⟩, ⟨Option.none⟩⟩ 999 "--jobs" =
        Except.ok w' ∧ w'.config.command_line_build_jobs = Option.some (min 999 (4 : Int)))) :=
  ⟨⟨by decide,
    (C9_config_write_after_validation 4 ⟨⟨Option.none, Option.some 2⟩, ⟨Option.none⟩⟩ (-1) "--jobs").1
      (by decide)⟩,
   ⟨by decide,
    (C9_config_write_after_validation 4 ⟨⟨Option.none, Option.some 2⟩, ⟨Option.none⟩⟩ 999 "--jobs").2
      (by decide)⟩⟩

/-- C7: the default of SetParallelJobs is recomputed on every access as the
minimum of the configured config:build_jobs (with fixed fallback 16 when
unset in every scope) and the cpu count; it therefore never exceeds the cpu
count, decreases when the cpu count decreases (no caching), and the setter
of the default is a no-op. -/
theorem C7_lazy_default (cpu_count : Nat) (config : ConfigState) (value : Int) :
    SetParallelJobs.default cpu_count config =
      min (config_get_build_jobs config 16) (cpu_count : Int) ∧
    SetParallelJobs.default cpu_count config ≤ (cpu_count : Int) ∧
    SetParallelJobs.default_set config value = config ∧
    (∀ cpu2 : Nat, cpu2 ≤ cpu_count →
      SetParallelJobs.default cpu2 config ≤ SetParallelJobs.default cpu_count config) ∧
    (config.command_line_build_jobs = Option.none ∧
        config.lower_scopes_build_jobs = Option.none →
      SetParallelJobs.default cpu_count config = min 16 (cpu_count : Int)) := by
  refine ⟨rfl, min_le_right _ _, rfl, ?_, ?_⟩
  · intro cpu2 h
    exact min_le_min le_rfl (by exact_mod_cast h)
  · intro h
    simp [SetParallelJobs.default, config_get_build_jobs, h.1, h.2]

theorem C7_lazy_default_witness :
    SetParallelJobs.default 8 ⟨Option.none, Option.none⟩ =
      min (config_get_build_jobs ⟨Option.none, Option.none⟩ 16) (8 : Int) ∧
    SetParallelJobs.default 8 ⟨Option.none, Option.none⟩ ≤ (8 : Int) ∧
    SetParallelJobs.default_set ⟨Option.none, Option.none⟩ 64 = ⟨Option.none, Option.none⟩ ∧
    (∀ cpu2 : Nat, cpu2 ≤ 8 →
      SetParallelJobs.default cpu2 ⟨Option.none, Option.none⟩ ≤
        SetParallelJobs.default 8 ⟨Option.none, Option.none⟩) ∧
    ((⟨Option.none, Option.none⟩ : ConfigState).command_line_build_jobs = Option.none ∧
        (⟨Option.none, Option.none⟩ : ConfigState).lower_scopes_build_jobs = Option.none →
      SetParallelJobs.default 8 ⟨Option.none, Option.none⟩ = min 16 (8 : Int)) :=
  C7_lazy_default 8 ⟨Option.none, Option.none⟩ 64

/-- C6: when DeptypeAction fires with no value, the destination is set to the
full tuple of all known dependency types and the canonicalizer is not
consulted (the result is the same for every canonicalizer); with a non-empty
value, the value is split on commas with each token stripped, the singleton
token sequence all is replaced by the symbolic marker, and the token
sequence is handed to the external canonicalizer, whose result (including an
unknown-token error) is the result of the action. -/
theorem C6_deptype_action (all_deptypes : List String)
    (canonical_deptype : DeptypeArg → Except String (List String))
    (v : String) (hv : v ≠ "") :
    (∀ c2 : DeptypeArg → Except String (List String),
      DeptypeAction.call all_deptypes c2 Option.none = Except.ok all_deptypes) ∧
    DeptypeAction.call all_deptypes canonical_deptype (Option.some v) =
      canonical_deptype
        (if (v.splitOn ",").map String.trim = ["all"] then DeptypeArg.all
         else DeptypeArg.tokens ((v.splitOn ",").map String.trim)) := by
  constructor
  · intro c2
    rfl
  · simp only [DeptypeAction.call, if_neg hv]

theorem C6_deptype_action_witness :
    ("build, link" : String) ≠ "" ∧
    ((∀ c2 : DeptypeArg → Except String (List String),
      DeptypeAction.call ["build", "link", "run", "test"] c2 Option.none =
        Except.ok ["build", "link", "run", "test"]) ∧
    DeptypeAction.call ["build", "link", "run", "test"]
        (fun d => Except.ok (match d with
          | DeptypeArg.all => ["build", "link", "run", "test"]
          | DeptypeArg.tokens ts => ts))
        (Option.some "build, link") =
      (fun d => Except.ok (match d with
          | DeptypeArg.all => ["build", "link", "run", "test"]
          | DeptypeArg.tokens ts => ts))
        (if ("build, link".splitOn ",").map String.trim = ["all"] then DeptypeArg.all
         else DeptypeArg.tokens (("build, link".splitOn ",").map String.trim))) :=
  ⟨by decide,
   C6_deptype_action ["build", "link", "run", "test"]
     (fun d => Except.ok (match d with
       | DeptypeArg.all => ["build", "link", "run", "test"]
       | DeptypeArg.tokens ts => ts))
     "build, link" (by decide)⟩

/-! ## The argument builders decorated with @arg in the source

The builders for clean and dirty read config:dirty at build time, and the
deptype builder reads dep.all_deptypes; those external values are passed in
as parameters, so a registry lookup still produces a fresh record relative
to the current external state. -/

def args.constraint : Args :=
  { flags := ["constraint"], nargs := Option.some Nargs.remainder,
    action := ActionKind.constraint_action,
    help := "constraint to select a subset of installed packages",
    metavar := Option.some "installed_specs" }

def args.package : Args :=
  { flags := ["package"], help := "package name" }

def args.packages : Args :=
  { flags := ["packages"], nargs := Option.some Nargs.one_or_more,
    help := "one or more package names", metavar := Option.some "package" }

def args.spec : Args :=
  { flags := ["spec"], nargs := Option.some Nargs.remainder, help := "package spec" }

def args.specs : Args :=
  { flags := ["specs"], nargs := Option.some Nargs.remainder,
    help := "one or more package specs" }

def args.installed_spec : Args :=
  { flags := ["spec"], nargs := Option.some Nargs.remainder,
    help := "installed package spec", metavar := Option.some "installed_spec" }

def args.installed_specs : Args :=
  { flags := ["specs"], nargs := Option.some Nargs.remainder,
    help := "one or more installed package specs",
    metavar := Option.some "installed_specs" }

def args.yes_to_all : Args :=
  { flags := ["-y", "--yes-to-all"], action := ActionKind.store_true,
    dest := Option.some "yes_to_all",
    help := "assume \"yes\" is the answer to every confirmation request\nexcluding --no-checksum." }

def args.recurse_dependencies : Args :=
  { flags := ["-r", "--dependencies"], action := ActionKind.store_true,
    dest := Option.some "recurse_dependencies",
    help := "recursively traverse spec dependencies" }

def args.recurse_dependents : Args :=
  { flags := ["-R", "--dependents"], action := ActionKind.store_true,
    dest := Option.some "dependents",
    help := "also uninstall any packages that depend on the ones given via command line" }

def args.clean (config_dirty : Bool) : Args :=
  { flags := ["--clean"], action := ActionKind.store_false,
    default := DefaultVal.boolean config_dirty, dest := Option.some "dirty",
    help := "unset harmful variables in the build environment (default)" }

def args.deptype (all_deptypes : List String) : Args :=
  { flags := ["--deptype"], action := ActionKind.deptype_action,
    default := DefaultVal.deptypes all_deptypes,
    help := "comma-separated list of deptypes to traverse\ndefault=" ++
      String.intercalate "," all_deptypes }

def args.dirty (config_dirty : Bool) : Args :=
  { flags := ["--dirty"], action := ActionKind.store_true,
    default := DefaultVal.boolean config_dirty, dest := Option.some "dirty",
    help := "preserve user environment in spack's build environment (danger!)" }

def args.long : Args :=
  { flags := ["-l", "--long"], action := ActionKind.store_true,
    help := "show dependency hashes as well as versions" }

def args.very_long : Args :=
  { flags := ["-L", "--very-long"], action := ActionKind.store_true,
    help := "show full dependency hashes as well as versions" }

def args.tags : Args :=
  { flags := ["-t", "--tags"], action := ActionKind.append,
    help := "filter a package query by tags" }

def args.jobs : Args :=
  { flags := ["-j", "--jobs"], action := ActionKind.set_parallel_jobs,
    type_is_int := true, dest := Option.some "jobs",
    help := "explicitly set number of parallel jobs" }

def args.install_status : Args :=
  { flags := ["-I", "--install-status"], action := ActionKind.store_true,
    default := DefaultVal.boolean false,
    help := "show install status of packages. packages can be: installed [+], missing and needed by an installed package [-], or not installed (no annotation)" }

def args.no_checksum : Args :=
  { flags := ["-n", "--no-checksum"], action := ActionKind.store_true,
    default := DefaultVal.boolean false,
    help := "do not use checksums to verify downloaded files (unsafe)" }

/-- Embedding of the module-level dictionary of argument-generating
functions, keyed by name; one entry per function decorated with @arg in the
source, in source order. -/
def _arguments (config_dirty : Bool) (all_deptypes : List String) :
    List (String × Args) :=
  [("constraint", args.constraint),
   ("package", args.package),
   ("packages", args.packages),
   ("spec", args.spec),
   ("specs", args.specs),
   ("installed_spec", args.installed_spec),
   ("installed_specs", args.installed_specs),
   ("yes_to_all", args.yes_to_all),
   ("recurse_dependencies", args.recurse_dependencies),
   ("recurse_dependents", args.recurse_dependents),
   ("clean", args.clean config_dirty),
   ("deptype", args.deptype all_deptypes),
   ("dirty", args.dirty config_dirty),
   ("long", args.long),
   ("very_long", args.very_long),
   ("tags", args.tags),
   ("jobs", args.jobs),
   ("install_status", args.install_status),
   ("no_checksum", args.no_checksum)]

/-- The names registered in the argument registry. -/
def registry_names : List String :=
  ["constraint", "package", "packages", "spec", "specs", "installed_spec",
   "installed_specs", "yes_to_all", "recurse_dependencies",
   "recurse_dependents", "clean", "deptype", "dirty", "long", "very_long",
   "tags", "jobs", "install_status", "no_checksum"]

theorem registry_keys_eq (config_dirty : Bool) (all_deptypes : List String) :
    (_arguments config_dirty all_deptypes).map Prod.fst = registry_names := rfl

/-- The KeyError message raised by add_common_arguments for an unknown
argument name. -/
def unknown_argument_message (argument : String) : String :=
  "Trying to add non existing argument \"" ++ argument ++ "\" to a command"

/-- Embedding of add_common_arguments: the parser is the list of argument
records added so far; each requested name is looked up in the registry in
order, an unknown name raising a KeyError whose error value carries the
parser state at the raise (the arguments already attached stay attached),
and a known name having its builder invoked and the result added. -/
def add_common_arguments (config_dirty : Bool) (all_deptypes : List String)
    (parser : List Args) : List String → Except (String × List Args) (List Args)
  | [] => Except.ok parser
  | argument :: rest =>
    match List.lookup argument (_arguments config_dirty all_deptypes) with
    | Option.none => Except.error (unknown_argument_message argument, parser)
    | Option.some x =>
      add_common_arguments config_dirty all_deptypes (parser ++ [x]) rest

theorem lookup_isSome_iff_mem_keys {α β : Type} [BEq α] [LawfulBEq α]
    (a : α) (l : List (α × β)) :
    (List.lookup a l).isSome = true ↔ a ∈ l.map Prod.fst := by
  induction l with
  | nil => simp [List.lookup]
  | cons p t ih =>
    by_cases h : a = p.1
    · subst h
      simp [List.lookup]
    · have hb : (a == p.1) = false := by
        simp [h]
      cases p with
      | mk k v =>
        simp only [List.lookup, hb, List.map, List.mem_cons]
        simp only [List.map] at ih
        rw [ih]
        constructor
        · intro hm
          exact Or.inr hm
        · intro hm
          cases hm with
          | inl hm => exact absurd hm h
          | inr hm => exact hm

theorem lookup_registry_eq_none (config_dirty : Bool) (all_deptypes : List String)
    (a : String) (h : a ∉ registry_names) :
    List.lookup a (_arguments config_dirty all_deptypes) = Option.none := by
  by_contra hne
  have hs : (List.lookup a (_arguments config_dirty all_deptypes)).isSome = true := by
    cases hl : List.lookup a (_arguments config_dirty all_deptypes) with
    | none => exact absurd hl hne
    | some x => simp
  rw [lookup_isSome_iff_mem_keys, registry_keys_eq] at hs
  exact h hs

theorem lookup_registry_isSome (config_dirty : Bool) (all_deptypes : List String)
    (a : String) (h : a ∈ registry_names) :
    (List.lookup a (_arguments config_dirty all_deptypes)).isSome = true := by
  rw [lookup_isSome_iff_mem_keys, registry_keys_eq]
  exact h

theorem add_ok_of_all_registered (config_dirty : Bool) (all_deptypes : List String)
    (names : List String)
    (h : ∀ a ∈ names, a ∈ registry_names) (parser : List Args) :
    ∃ p, add_common_arguments config_dirty all_deptypes parser names = Except.ok p := by
  induction names generalizing parser with
  | nil => exact ⟨parser, rfl⟩
  | cons a rest ih =>
    have ha : a ∈ registry_names := h a (List.mem_cons_self a rest)
    have hs := lookup_registry_isSome config_dirty all_deptypes a ha
    cases hl : List.lookup a (_arguments config_dirty all_deptypes) with
    | none => rw [hl] at hs; simp at hs
    | some x =>
      have := ih (fun b hb => h b (List.mem_cons_of_mem a hb)) (parser ++ [x])
      simpa [add_common_arguments, hl] using this

theorem add_error_of_unregistered (config_dirty : Bool) (all_deptypes : List String)
    (names : List String)
    (h : ∃ a ∈ names, a ∉ registry_names) (parser : List Args) :
    ∃ e, add_common_arguments config_dirty all_deptypes parser names = Except.error e ∧
      ∃ a ∈ names, a ∉ registry_names ∧ e.1 = unknown_argument_message a := by
  induction names generalizing parser with
  | nil => simp at h
  | cons a rest ih =>
    by_cases ha : a ∈ registry_names
    · obtain ⟨b, hb, hbreg⟩ := h
      have hbrest : b ∈ rest := by
        cases List.mem_cons.mp hb with
        | inl hh => exact absurd (hh ▸ ha) hbreg
        | inr hh => exact hh
      have hs := lookup_registry_isSome config_dirty all_deptypes a ha
      cases hl : List.lookup a (_arguments config_dirty all_deptypes) with
      | none => rw [hl] at hs; simp at hs
      | some x =>
        obtain ⟨e, he, c, hc, hcreg, hcm⟩ := ih ⟨b, hbrest, hbreg⟩ (parser ++ [x])
        exact ⟨e, by simpa [add_common_arguments, hl] using he,
               c, List.mem_cons_of_mem a hc, hcreg, hcm⟩
    · refine ⟨(unknown_argument_message a, parser), ?_, a, List.mem_cons_self a rest, ha, rfl⟩
      have hl := lookup_registry_eq_none config_dirty all_deptypes a ha
      simp [add_common_arguments, hl]

/-- C2: attaching a list of names raises the unknown-argument error if and
only if some name in the list is not registered; every raised error names an
unregistered name of the list in its message; and for every registered name,
attaching that single name never raises. -/
theorem C2_attach_unknown_iff (config_dirty : Bool) (all_deptypes : List String)
    (parser : List Args) (names : List String) :
    ((∃ e, add_common_arguments config_dirty all_deptypes parser names = Except.error e) ↔
      ∃ a ∈ names, a ∉ registry_names) ∧
    (∀ e, add_common_arguments config_dirty all_deptypes parser names = Except.error e →
      ∃ a ∈ names, a ∉ registry_names ∧ e.1 = unknown_argument_message a) ∧
    (∀ a ∈ registry_names,
      ∃ p, add_common_arguments config_dirty all_deptypes parser [a] = Except.ok p) := by
  refine ⟨⟨?_, ?_⟩, ?_, ?_⟩
  · intro ⟨e, he⟩
    by_contra hno
    push_neg at hno
    obtain ⟨p, hp⟩ := add_ok_of_all_registered config_dirty all_deptypes names hno parser
    rw [hp] at he
    exact Except.noConfusion he
  · intro h
    obtain ⟨e, he, _⟩ := add_error_of_unregistered config_dirty all_deptypes names h parser
    exact ⟨e, he⟩
  · intro e he
    by_cases h : ∃ a ∈ names, a ∉ registry_names
    · obtain ⟨e', he', c, hc, hcreg, hcm⟩ :=
        add_error_of_unregistered config_dirty all_deptypes names h parser
      rw [he] at he'
      cases he'
      exact ⟨c, hc, hcreg, hcm⟩
    · push_neg at h
      obtain ⟨p, hp⟩ := add_ok_of_all_registered config_dirty all_deptypes names h parser
      rw [hp] at he
      exact Except.noConfusion he
  · intro a ha
    exact add_ok_of_all_registered config_dirty all_deptypes [a]
      (fun b hb => by
        cases List.mem_cons.mp hb with
        | inl hh => exact hh ▸ ha
        | inr hh => simp at hh)
      parser

theorem C2_attach_unknown_iff_witness :
    ((∃ e, add_common_arguments true ["build", "link", "run", "test"] [] ["jobs", "nonsense"] =
        Except.error e) ↔ ∃ a ∈ ["jobs", "nonsense"], a ∉ registry_names) ∧
    (∀ e, add_common_arguments true ["build", "link", "run", "test"] [] ["jobs", "nonsense"] =
        Except.error e →
      ∃ a ∈ ["jobs", "nonsense"], a ∉ registry_names ∧ e.1 = unknown_argument_message a) ∧
    (∀ a ∈ registry_names,
      ∃ p, add_common_arguments true ["build", "link", "run", "test"] [] [a] = Except.ok p) :=
  C2_attach_unknown_iff true ["build", "link", "run", "test"] [] ["jobs", "nonsense"]

theorem add_ok_appends (config_dirty : Bool) (all_deptypes : List String)
    (names : List String) (parser p : List Args)
    (h : add_common_arguments config_dirty all_deptypes parser names = Except.ok p) :
    ∃ added, p = parser ++ added ∧ added.length = names.length := by
  induction names generalizing parser with
  | nil =>
    refine ⟨[], ?_, rfl⟩
    simp only [add_common_arguments] at h
    cases h
    simp
  | cons a rest ih =>
    simp only [add_common_arguments] at h
    cases hl : List.lookup a (_arguments config_dirty all_deptypes) with
    | none => rw [hl] at h; exact Except.noConfusion h
    | some x =>
      rw [hl] at h
      obtain ⟨added, hadd, hlen⟩ := ih (parser ++ [x]) h
      exact ⟨x :: added, by simp [hadd], by simp [hlen]⟩

/-- C10: attachment is not atomic: when a prefix of names attaches cleanly
(producing parser state p') and the next name is unregistered, attaching the
whole list raises the unknown-argument error for that name with the parser
already holding exactly the arguments added by the prefix — one per prefix
name — which it therefore retains despite the error. -/
theorem C10_partial_attachment (config_dirty : Bool) (all_deptypes : List String)
    (parser p' : List Args) (pre : List String) (bad : String) (rest : List String)
    (hpre : add_common_arguments config_dirty all_deptypes parser pre = Except.ok p')
    (hbad : bad ∉ registry_names) :
    add_common_arguments config_dirty all_deptypes parser (pre ++ bad :: rest) =
      Except.error (unknown_argument_message bad, p') ∧
    ∃ added, p' = parser ++ added ∧ added.length = pre.length := by
  constructor
  · induction pre generalizing parser with
    | nil =>
      simp only [add_common_arguments] at hpre
      cases hpre
      have hl := lookup_registry_eq_none config_dirty all_deptypes bad hbad
      simp [add_common_arguments, hl]
    | cons a t ih =>
      simp only [add_common_arguments] at hpre ⊢
      cases hl : List.lookup a (_arguments config_dirty all_deptypes) with
      | none => rw [hl] at hpre; exact Except.noConfusion hpre
      | some x =>
        rw [hl] at hpre
        exact ih (parser ++ [x]) hpre
  · exact add_ok_appends config_dirty all_deptypes pre parser p' hpre

theorem C10_partial_attachment_witness :
    add_common_arguments true ["build", "link", "run", "test"] [] (["long"] ++ "nonsense" :: ["tags"]) =
      Except.error (unknown_argument_message "nonsense", [args.long]) ∧
    ∃ added, ([args.long] : List Args) = [] ++ added ∧ added.length = (["long"] : List String).length :=
  C10_partial_attachment true ["build", "link", "run", "test"] [] [args.long]
    ["long"] "nonsense" ["tags"] rfl (by decide)

/-! ## ConstraintAction

External collaborators: spack.cmd.parse_specs (a fallible parser from raw
tokens to a list of query specs, abstracted as numeric codes),
ev._active_environment (an optional environment exposing the hashes of its
installed packages), and spack.store.db.query (taking an optional query spec
plus keyword filters and returning concrete specs). A concrete spec exposes
its dag_hash; the external total order used by sorted is modelled by the
hash sort key (distinct installed specs have distinct hashes). -/

/-- A concrete (installed) spec as returned by the database: its name and
its canonical content hash as exposed by the dag_hash method. -/
structure PSpec where
  name : String
  dag_hash : Nat
deriving DecidableEq

/-- The external total order on specs used by sorted, modelled through the
canonical content hash as sort key. -/
def PSpec.le (a b : PSpec) : Bool :=
  a.dag_hash ≤ b.dag_hash

/-- The keyword filters accepted by the database query: the hashes filter
that ConstraintAction may write, plus a representative further filter that
it never touches. A Python dict holds one value per key, so writing hashes
replaces any caller-supplied value. -/
structure Kwargs where
  hashes : Option (List Nat) := Option.none
  installed : Option Bool := Option.none
deriving DecidableEq

/-- An active environment, exposing the hashes of its installed packages
through all_hashes. -/
structure Env where
  all_hashes : List Nat
deriving DecidableEq

/-- Embedding of the environment lines of ConstraintAction._specs:
env = ev._active_environment; if env: kwargs[hashes] = set(env.all_hashes()).
The Python set constructor is modelled by dedup; the assignment replaces any
existing hashes entry of the dict. -/
def env_hashes_restrict (active_environment : Option Env) (kwargs : Kwargs) : Kwargs :=
  match active_environment with
  | Option.some env => { kwargs with hashes := Option.some env.all_hashes.dedup }
  | Option.none => kwargs

/-- Embedding of one Python dict assignment specs[k] = v on an
insertion-ordered dictionary represented as an association list: an existing
key keeps its position with the new value, a new key goes to the end. -/
def dict_insert (d : List (Nat × PSpec)) (k : Nat) (v : PSpec) : List (Nat × PSpec) :=
  if k ∈ d.map Prod.fst then
    d.map (fun p => if p.1 = k then (k, v) else p)
  else d ++ [(k, v)]

/-- Embedding of the inner loop of ConstraintAction._specs: each spec s of
one database answer is stored under its dag_hash. -/
def query_insert_all (d : List (Nat × PSpec)) (results : List PSpec) :
    List (Nat × PSpec) :=
  results.foldl (fun acc s => dict_insert acc s.dag_hash s) d

/-- Embedding of the outer loop of ConstraintAction._specs: every parsed
query spec is run against the database and its matches accumulated. -/
def query_accumulate (db_query : Option Nat → Kwargs → List PSpec)
    (kwargs : Kwargs) (d : List (Nat × PSpec)) (qspecs : List Nat) :
    List (Nat × PSpec) :=
  qspecs.foldl (fun acc spec => query_insert_all acc (db_query (Option.some spec) kwargs)) d

/-- Embedding of ConstraintAction._specs: parse the captured tokens (a parse
error propagates to the caller of the deferred callable), restrict the
keyword filters to the active environment when one is present, answer an
empty query with the plain database query, and otherwise accumulate the
matches of every query spec keyed by dag_hash and return the values sorted
by the external spec order. -/
def ConstraintAction.specs_fn
    (parse_specs : List String → Except String (List Nat))
    (active_environment : Option Env)
    (db_query : Option Nat → Kwargs → List PSpec)
    (values : List String) (kwargs : Kwargs) : Except String (List PSpec) :=
  match parse_specs values with
  | Except.error e => Except.error e
  | Except.ok qspecs =>
    let kwargs := env_hashes_restrict active_environment kwargs
    if qspecs.isEmpty then
      Except.ok (db_query Option.none kwargs)
    else
      Except.ok (List.mergeSort
        ((query_accumulate db_query kwargs [] qspecs).map Prod.snd) PSpec.le)

/-- The namespace fields written by ConstraintAction: the raw constraint
tokens, and the deferred callable (the bound _specs method). The callable
abstracts over the spec parser, the active environment and the database
because those are process globals read when it is invoked, not at parse
time; the only parse-time capture is the token list. -/
structure CNamespace where
  constraint : Option (List String) := Option.none
  specs : Option ((List String → Except String (List Nat)) → Option Env →
    (Option Nat → Kwargs → List PSpec) → Kwargs → Except String (List PSpec)) :=
    Option.none

/-- Embedding of ConstraintAction.__call__: it only stores the raw tokens
under constraint and the bound deferred callable under specs; it takes no
collaborator and can raise nothing. -/
def ConstraintAction.call (ns : CNamespace) (values : List String) : CNamespace :=
  { ns with constraint := Option.some values,
            specs := Option.some (fun parse_specs active_environment db_query kwargs =>
              ConstraintAction.specs_fn parse_specs active_environment db_query values kwargs) }

/-! ## Theorems for ConstraintAction -/

/-- C5: when the captured constraint token list parses to no query specs,
the deferred callable returns the full unrestricted result of the database
query (here with no active environment, the caller's filters passed through
untouched), not a per-spec match. -/
theorem C5_empty_constraint (parse_specs : List String → Except String (List Nat))
    (db_query : Option Nat → Kwargs → List PSpec)
    (values : List String) (kwargs : Kwargs)
    (hparse : parse_specs values = Except.ok []) :
    ConstraintAction.specs_fn parse_specs Option.none db_query values kwargs =
      Except.ok (db_query Option.none kwargs) := by
  simp [ConstraintAction.specs_fn, hparse, env_hashes_restrict]

theorem C5_empty_constraint_witness :
    ConstraintAction.specs_fn (fun _ => Except.ok []) Option.none
        (fun _ _ => [⟨"libelf", 1⟩, ⟨"mpich", 2⟩, ⟨"zlib", 3⟩]) [] {} =
      Except.ok [⟨"libelf", 1⟩, ⟨"mpich", 2⟩, ⟨"zlib", 3⟩] :=
  C5_empty_constraint (fun _ => Except.ok [])
    (fun _ _ => [⟨"libelf", 1⟩, ⟨"mpich", 2⟩, ⟨"zlib", 3⟩]) [] {} rfl

/-- C1 counterexample: the claim says a caller-supplied hashes filter and
the active environment's hash set are both passed through to the database.
With caller filter hashes = [5] and environment hashes [7], the keyword
arguments reaching the database hold exactly [7] — the caller's 5 is gone —
as an echoing database makes observable in the deferred callable's result. -/
theorem C1_hashes_override_counterexample :
    env_hashes_restrict (Option.some { all_hashes := [7] })
        { hashes := Option.some [5], installed := Option.none } =
      { hashes := Option.some [7], installed := Option.none } ∧
    ConstraintAction.specs_fn (fun _ => Except.ok [])
        (Option.some { all_hashes := [7] })
        (fun _ kw => (kw.hashes.getD []).map (fun h => { name := "pkg", dag_hash := h }))
        [] { hashes := Option.some [5], installed := Option.none } =
      Except.ok [{ name := "pkg", dag_hash := 7 }] ∧
    (5 : Nat) ∉ ([7] : List Nat) :=
  ⟨rfl, rfl, by decide⟩

/-- C1 as amended: when the deferred callable runs with an active
environment, the environment's installed-hash set (as a set, deduplicated)
OVERRIDES any caller-supplied hashes filter — it is not merged with it —
while every other caller filter passes through unchanged; the database then
receives exactly the overridden keyword arguments. -/
theorem C1_env_hashes_override (parse_specs : List String → Except String (List Nat))
    (env : Env) (db_query : Option Nat → Kwargs → List PSpec)
    (values : List String) (kwargs : Kwargs)
    (hparse : parse_specs values = Except.ok []) :
    env_hashes_restrict (Option.some env) kwargs =
      { kwargs with hashes := Option.some env.all_hashes.dedup } ∧
    ConstraintAction.specs_fn parse_specs (Option.some env) db_query values kwargs =
      Except.ok (db_query Option.none
        { kwargs with hashes := Option.some env.all_hashes.dedup }) := by
  refine ⟨rfl, ?_⟩
  simp [ConstraintAction.specs_fn, hparse, env_hashes_restrict]

theorem C1_env_hashes_override_witness :
    env_hashes_restrict (Option.some { all_hashes := [7, 7, 9] })
        { hashes := Option.some [5], installed := Option.some true } =
      { ({ hashes := Option.some [5], installed := Option.some true } : Kwargs) with
        hashes := Option.some ([7, 7, 9] : List Nat).dedup } ∧
    ConstraintAction.specs_fn (fun _ => Except.ok [])
        (Option.some { all_hashes := [7, 7, 9] })
        (fun _ kw => (kw.hashes.getD []).map (fun h => { name := "pkg", dag_hash := h }))
        ["zlib"] { hashes := Option.some [5], installed := Option.some true } =
      Except.ok [{ name := "pkg", dag_hash := 7 }, { name := "pkg", dag_hash := 9 }] :=
  C1_env_hashes_override (fun _ => Except.ok []) { all_hashes := [7, 7, 9] }
    (fun _ kw => (kw.hashes.getD []).map (fun h => { name := "pkg", dag_hash := h }))
    ["zlib"] { hashes := Option.some [5], installed := Option.some true } rfl

/-- C8: ConstraintAction performs no spec parsing and no database query at
parse time: its call only stores the raw tokens under constraint and the
deferred callable under specs (it does not even receive the parser, the
environment or the database, and by its type it cannot raise); a parse error
in the constraint tokens surfaces only when the deferred callable is later
invoked. -/
theorem C8_deferred_parse_error (ns : CNamespace) (values : List String)
    (parse_specs : List String → Except String (List Nat))
    (active_environment : Option Env)
    (db_query : Option Nat → Kwargs → List PSpec) (kwargs : Kwargs) (e : String)
    (hparse : parse_specs values = Except.error e) :
    (ConstraintAction.call ns values).constraint = Option.some values ∧
    ∃ f, (ConstraintAction.call ns values).specs = Option.some f ∧
      f parse_specs active_environment db_query kwargs = Except.error e := by
  refine ⟨rfl, ⟨_, rfl, ?_⟩⟩
  simp [ConstraintAction.specs_fn, hparse]

theorem C8_deferred_parse_error_witness :
    (ConstraintAction.call {} ["@bad@@spec"]).constraint = Option.some ["@bad@@spec"] ∧
    ∃ f, (ConstraintAction.call {} ["@bad@@spec"]).specs = Option.some f ∧
      f (fun _ => Except.error "SpecParseError") Option.none (fun _ _ => []) {} =
        Except.error "SpecParseError" :=
  C8_deferred_parse_error {} ["@bad@@spec"] (fun _ => Except.error "SpecParseError")
    Option.none (fun _ _ => []) {} "SpecParseError" rfl

/-! ## Dictionary accumulation lemmas for the non-empty query path -/

/-- Every entry of the accumulated dictionary is stored under its own
dag_hash. -/
def hash_keyed (d : List (Nat × PSpec)) : Prop :=
  ∀ p ∈ d, p.2.dag_hash = p.1

theorem dict_insert_map_fst (d : List (Nat × PSpec)) (k : Nat) (v : PSpec) :
    (dict_insert d k v).map Prod.fst =
      if k ∈ d.map Prod.fst then d.map Prod.fst else d.map Prod.fst ++ [k] := by
  unfold dict_insert
  by_cases h : k ∈ d.map Prod.fst
  · simp only [h, if_true, List.map_map]
    refine List.map_congr_left ?_
    intro p _
    by_cases hp : p.1 = k
    · simp [Function.comp, hp]
    · simp [Function.comp, hp]
  · simp [h]

theorem dict_insert_keys_nodup (d : List (Nat × PSpec)) (k : Nat) (v : PSpec)
    (h : (d.map Prod.fst).Nodup) : ((dict_insert d k v).map Prod.fst).Nodup := by
  rw [dict_insert_map_fst]
  by_cases hk : k ∈ d.map Prod.fst
  · simpa [hk] using h
  · simp only [hk, if_false]
    rw [List.nodup_append]
    refine ⟨h, List.nodup_singleton k, ?_⟩
    intro a ha hak
    rw [List.mem_singleton] at hak
    exact hk (hak ▸ ha)

theorem dict_insert_mem_keys (d : List (Nat × PSpec)) (k : Nat) (v : PSpec) (k' : Nat) :
    k' ∈ (dict_insert d k v).map Prod.fst ↔ k' ∈ d.map Prod.fst ∨ k' = k := by
  rw [dict_insert_map_fst]
  by_cases hk : k ∈ d.map Prod.fst
  · simp only [hk, if_true]
    constructor
    · exact Or.inl
    · rintro (h | rfl)
      · exact h
      · exact hk
  · simp [hk]

theorem dict_insert_hash_keyed (d : List (Nat × PSpec)) (k : Nat) (v : PSpec)
    (hd : hash_keyed d) (hv : v.dag_hash = k) : hash_keyed (dict_insert d k v) := by
  unfold dict_insert
  by_cases h : k ∈ d.map Prod.fst
  · simp only [h, if_true]
    intro p hp
    obtain ⟨q, hq, hqe⟩ := List.mem_map.mp hp
    by_cases hq1 : q.1 = k
    · rw [if_pos hq1] at hqe
      subst hqe
      exact hv
    · rw [if_neg hq1] at hqe
      subst hqe
      exact hd q hq
  · simp only [h, if_false]
    intro p hp
    rcases List.mem_append.mp hp with h1 | h1
    · exact hd p h1
    · rw [List.mem_singleton] at h1
      subst h1
      exact hv

theorem query_insert_all_nil (d : List (Nat × PSpec)) : query_insert_all d [] = d := rfl

theorem query_insert_all_cons (d : List (Nat × PSpec)) (s : PSpec) (t : List PSpec) :
    query_insert_all d (s :: t) = query_insert_all (dict_insert d s.dag_hash s) t := rfl

theorem query_insert_all_keys_nodup (results : List PSpec) (d : List (Nat × PSpec))
    (h : (d.map Prod.fst).Nodup) : ((query_insert_all d results).map Prod.fst).Nodup := by
  induction results generalizing d with
  | nil => exact h
  | cons s t ih => exact ih _ (dict_insert_keys_nodup d s.dag_hash s h)

theorem query_insert_all_mem_keys (results : List PSpec) (d : List (Nat × PSpec)) (k' : Nat) :
    k' ∈ (query_insert_all d results).map Prod.fst ↔
      k' ∈ d.map Prod.fst ∨ ∃ s ∈ results, s.dag_hash = k' := by
  induction results generalizing d with
  | nil => simp [query_insert_all_nil]
  | cons s t ih =>
    rw [query_insert_all_cons, ih, dict_insert_mem_keys]
    constructor
    · rintro ((h | h) | ⟨x, hx, he⟩)
      · exact Or.inl h
      · exact Or.inr ⟨s, List.mem_cons_self s t, h.symm⟩
      · exact Or.inr ⟨x, List.mem_cons_of_mem s hx, he⟩
    · rintro (h | ⟨x, hx, he⟩)
      · exact Or.inl (Or.inl h)
      · rcases List.mem_cons.mp hx with h1 | h1
        · subst h1
          exact Or.inl (Or.inr he.symm)
        · exact Or.inr ⟨x, h1, he⟩

theorem query_insert_all_hash_keyed (results : List PSpec) (d : List (Nat × PSpec))
    (hd : hash_keyed d) : hash_keyed (query_insert_all d results) := by
  induction results generalizing d with
  | nil => exact hd
  | cons s t ih => exact ih _ (dict_insert_hash_keyed d s.dag_hash s hd rfl)

theorem query_accumulate_nil (db_query : Option Nat → Kwargs → List PSpec)
    (kwargs : Kwargs) (d : List (Nat × PSpec)) : query_accumulate db_query kwargs d [] = d := rfl

theorem query_accumulate_cons (db_query : Option Nat → Kwargs → List PSpec)
    (kwargs : Kwargs) (d : List (Nat × PSpec)) (q : Nat) (qs : List Nat) :
    query_accumulate db_query kwargs d (q :: qs) =
      query_accumulate db_query kwargs
        (query_insert_all d (db_query (Option.some q) kwargs)) qs := rfl

theorem query_accumulate_keys_nodup (db_query : Option Nat → Kwargs → List PSpec)
    (kwargs : Kwargs) (qspecs : List Nat) (d : List (Nat × PSpec))
    (h : (d.map Prod.fst).Nodup) :
    ((query_accumulate db_query kwargs d qspecs).map Prod.fst).Nodup := by
  induction qspecs generalizing d with
  | nil => exact h
  | cons q qs ih =>
    rw [query_accumulate_cons]
    exact ih _ (query_insert_all_keys_nodup _ d h)

theorem query_accumulate_mem_keys (db_query : Option Nat → Kwargs → List PSpec)
    (kwargs : Kwargs) (qspecs : List Nat) (d : List (Nat × PSpec)) (k' : Nat) :
    k' ∈ (query_accumulate db_query kwargs d qspecs).map Prod.fst ↔
      k' ∈ d.map Prod.fst ∨
        ∃ q ∈ qspecs, ∃ s ∈ db_query (Option.some q) kwargs, s.dag_hash = k' := by
  induction qspecs generalizing d with
  | nil => simp [query_accumulate_nil]
  | cons q qs ih =>
    rw [query_accumulate_cons, ih, query_insert_all_mem_keys]
    constructor
    · rintro ((h | ⟨s, hs, he⟩) | ⟨x, hx, s, hs, he⟩)
      · exact Or.inl h
      · exact Or.inr ⟨q, List.mem_cons_self q qs, s, hs, he⟩
      · exact Or.inr ⟨x, List.mem_cons_of_mem q hx, s, hs, he⟩
    · rintro (h | ⟨x, hx, s, hs, he⟩)
      · exact Or.inl (Or.inl h)
      · rcases List.mem_cons.mp hx with h1 | h1
        · subst h1
          exact Or.inl (Or.inr ⟨s, hs, he⟩)
        · exact Or.inr ⟨x, h1, s, hs, he⟩

theorem query_accumulate_hash_keyed (db_query : Option Nat → Kwargs → List PSpec)
    (kwargs : Kwargs) (qspecs : List Nat) (d : List (Nat × PSpec))
    (hd : hash_keyed d) : hash_keyed (query_accumulate db_query kwargs d qspecs) := by
  induction qspecs generalizing d with
  | nil => exact hd
  | cons q qs ih =>
    rw [query_accumulate_cons]
    exact ih _ (query_insert_all_hash_keyed _ d hd)

theorem map_snd_dag_hash_eq_keys (d : List (Nat × PSpec)) (hd : hash_keyed d) :
    (d.map Prod.snd).map PSpec.dag_hash = d.map Prod.fst := by
  rw [List.map_map]
  exact List.map_congr_left (fun p hp => hd p hp)

theorem PSpec.le_trans (a b c : PSpec) (hab : PSpec.le a b = true)
    (hbc : PSpec.le b c = true) : PSpec.le a c = true := by
  simp only [PSpec.le, decide_eq_true_eq] at *
  omega

theorem PSpec.le_total (a b : PSpec) : (PSpec.le a b || PSpec.le b a) = true := by
  simp only [PSpec.le, Bool.or_eq_true, decide_eq_true_eq]
  omega

/-- C4: for a non-empty list of parsed query specs, the deferred callable
accumulates the database matches keyed by dag_hash — so a package matched by
two different constraint expressions appears exactly once (the hashes of the
result are pairwise distinct, and a hash is in the result precisely when
some query spec matched a package with that hash) — and returns the values
sorted by the external spec order. -/
theorem C4_dedup_and_sorted (parse_specs : List String → Except String (List Nat))
    (active_environment : Option Env)
    (db_query : Option Nat → Kwargs → List PSpec)
    (values : List String) (kwargs : Kwargs) (qspecs : List Nat)
    (hparse : parse_specs values = Except.ok qspecs) (hne : qspecs ≠ []) :
    ∃ res, ConstraintAction.specs_fn parse_specs active_environment db_query values kwargs =
        Except.ok res ∧
      res.Pairwise (fun a b => PSpec.le a b = true) ∧
      (res.map PSpec.dag_hash).Nodup ∧
      (∀ h : Nat, h ∈ res.map PSpec.dag_hash ↔
        ∃ q ∈ qspecs,
          ∃ s ∈ db_query (Option.some q) (env_hashes_restrict active_environment kwargs),
            s.dag_hash = h) := by
  have hempty : qspecs.isEmpty = false := by
    cases qspecs with
    | nil => exact absurd rfl hne
    | cons a t => rfl
  have hkeyed : hash_keyed
      (query_accumulate db_query (env_hashes_restrict active_environment kwargs) [] qspecs) :=
    query_accumulate_hash_keyed _ _ _ [] (fun p hp => absurd hp (List.not_mem_nil p))
  have hperm :
      (List.mergeSort
        ((query_accumulate db_query (env_hashes_restrict active_environment kwargs) [] qspecs).map
          Prod.snd) PSpec.le).Perm
      ((query_accumulate db_query (env_hashes_restrict active_environment kwargs) [] qspecs).map
        Prod.snd) :=
    List.mergeSort_perm _ _
  have hpermmap := hperm.map PSpec.dag_hash
  refine ⟨List.mergeSort
      ((query_accumulate db_query (env_hashes_restrict active_environment kwargs) [] qspecs).map
        Prod.snd) PSpec.le, ?_, ?_, ?_, ?_⟩
  · simp [ConstraintAction.specs_fn, hparse, hempty]
  · exact List.sorted_mergeSort PSpec.le_trans PSpec.le_total _
  · rw [hpermmap.nodup_iff, map_snd_dag_hash_eq_keys _ hkeyed]
    exact query_accumulate_keys_nodup _ _ _ [] (by simp)
  · intro h
    rw [hpermmap.mem_iff, map_snd_dag_hash_eq_keys _ hkeyed, query_accumulate_mem_keys]
    simp

theorem C4_dedup_and_sorted_witness :
    ∃ res, ConstraintAction.specs_fn (fun _ => Except.ok [1, 2]) Option.none
        (fun q _ =>
          if q = Option.some 1 then [⟨"libelf", 10⟩, ⟨"mpich", 20⟩]
          else if q = Option.some 2 then [⟨"mpich", 20⟩, ⟨"zlib", 5⟩] else [])
        ["mpich"] {} = Except.ok res ∧
      res.Pairwise (fun a b => PSpec.le a b = true) ∧
      (res.map PSpec.dag_hash).Nodup ∧
      (∀ h : Nat, h ∈ res.map PSpec.dag_hash ↔
        ∃ q ∈ [1, 2],
          ∃ s ∈ (fun q _ =>
              if q = Option.some 1 then [(⟨"libelf", 10⟩ : PSpec), ⟨"mpich", 20⟩]
              else if q = Option.some 2 then [⟨"mpich", 20⟩, ⟨"zlib", 5⟩] else [])
            (Option.some q) (env_hashes_restrict Option.none {}),
            s.dag_hash = h) :=
  C4_dedup_and_sorted (fun _ => Except.ok [1, 2]) Option.none
    (fun q _ =>
      if q = Option.some 1 then [⟨"libelf", 10⟩, ⟨"mpich", 20⟩]
      else if q = Option.some 2 then [⟨"mpich", 20⟩, ⟨"zlib", 5⟩] else [])
    ["mpich"] {} [1, 2] rfl (by decide)

end SpackArgs
